import Mathlib

/-!
Verification of the hue-controller core against its specification.

The development shallowly embeds the two subsystems the specification covers:

* the audio analysis pipeline of `audio_processor.py` (`BeatDetector.detect_beat`,
  `TempoEstimator.add_beat` / `estimate_bpm`, `AudioProcessor._get_band_energy`,
  the default `FrequencyBands` table), and
* the effect-execution engine of `app_lite.py` (the `running_effects` registry,
  `start_advanced_strobe`, `advanced_strobe_effect`, `start_ultra_strobe_effect`,
  `ultra_strobe_worker`, `ultra_fast_flash`, `stop_effect`, `get_active_effects`).

Python floats are modelled as rationals (`ℚ`), Python lists as `List`,
Python dict literals (whose later duplicate keys override earlier ones) as
association lists read with a last-occurrence lookup.  Wall-clock driven loops
are modelled by making the per-iteration data (timestamps, cycle counts)
explicit parameters.
-/

/-! ## Audio analysis pipeline (`audio_processor.py`) -/

/-- `np.mean` over a list of rationals. -/
def listMean (xs : List ℚ) : ℚ := xs.sum / (xs.length : ℚ)

/-- `np.diff`: consecutive differences `[x₁-x₀, x₂-x₁, …]`. -/
def listDiff (xs : List ℚ) : List ℚ := List.zipWith (fun a b => b - a) xs xs.tail

/-- `np.median`: sort, take the middle element (odd length) or the average of
the two middle elements (even length). -/
def listMedian (xs : List ℚ) : ℚ :=
  let s := xs.mergeSort (fun a b => decide (a ≤ b))
  let n := s.length
  if n = 0 then 0
  else if n % 2 = 1 then s.getD (n / 2) 0
  else (s.getD (n / 2 - 1) 0 + s.getD (n / 2) 0) / 2

/-- State of `TempoEstimator`: the bounded window of beat timestamps
(`window_size = 100`). -/
structure TempoEstimator where
  beat_times : List ℚ
deriving DecidableEq

/-- `TempoEstimator.add_beat`: append the timestamp, then evict the oldest
entry if the window of 100 is exceeded. -/
def add_beat (s : TempoEstimator) (timestamp : ℚ) : TempoEstimator :=
  let bt := s.beat_times ++ [timestamp]
  ⟨if bt.length > 100 then bt.tail else bt⟩

/-- `TempoEstimator.estimate_bpm`: 0 below 4 recorded beats, else
`60 / median(np.diff(beat_times))` clamped by `max(60, min(200, bpm))`,
with a fallback 0 when the median interval is not positive. -/
def estimate_bpm (s : TempoEstimator) : ℚ :=
  if s.beat_times.length < 4 then 0
  else
    let median_interval := listMedian (listDiff s.beat_times)
    if 0 < median_interval then
      max 60 (min 200 (60 / median_interval))
    else 0

/-- State of `BeatDetector`: `last_beat_time` (initially 0) and the rolling
`energy_history` (at most `max_history_size = 43` entries). -/
structure BeatDetector where
  last_beat_time : ℚ
  energy_history : List ℚ
deriving DecidableEq

/-- Initial `BeatDetector` state (`last_beat_time = 0`, empty history). -/
def BeatDetector.init : BeatDetector := ⟨0, []⟩

/-- Frame energy: `np.sum(audio_chunk ** 2)`. -/
def chunkEnergy (chunk : List ℚ) : ℚ := (chunk.map (fun x => x ^ 2)).sum

/-- The energy history after `detect_beat` appends the current frame's energy
and trims the history to `max_history_size = 43` by popping the oldest entry. -/
def postHistory (s : BeatDetector) (chunk : List ℚ) : List ℚ :=
  let h := s.energy_history ++ [chunkEnergy chunk]
  if h.length > 43 then h.tail else h

/-- `BeatDetector.detect_beat`, with the wall-clock reading `time.time()`
passed explicitly as `t`.  Appends the chunk energy, trims the history, and
fires a beat when the history holds at least 10 entries, the mean of the last
3 entries exceeds the mean of the earlier entries by more than the 30% onset
threshold, and strictly more than the 0.2 s `min_beat_interval` has elapsed
since `last_beat_time`.  Returns the flag and the updated state. -/
def detect_beat (s : BeatDetector) (t : ℚ) (chunk : List ℚ) : Bool × BeatDetector :=
  let h := postHistory s chunk
  if 10 ≤ h.length then
    let avg_energy := listMean (h.take (h.length - 3))
    let current_energy := listMean (h.drop (h.length - 3))
    if avg_energy * (1 + 3/10) < current_energy ∧ 1/5 < t - s.last_beat_time then
      (true, ⟨t, h⟩)
    else
      (false, ⟨s.last_beat_time, h⟩)
  else
    (false, ⟨s.last_beat_time, h⟩)

/-- Run the beat detector over a list of frames `(t, chunk)`; returns the final
state together with the timestamps of all flagged beats, in order. -/
def runDetector (s : BeatDetector) (frames : List (ℚ × List ℚ)) :
    BeatDetector × List ℚ :=
  match frames with
  | [] => (s, [])
  | (t, chunk) :: rest =>
    let r := detect_beat s t chunk
    let rec' := runDetector r.2 rest
    (rec'.1, (if r.1 then [t] else []) ++ rec'.2)

/-- One step of `AudioProcessor._extract_features` as far as the beat/tempo
state is concerned: `timestamp = time.time()` is taken first (`tf`), the
detector later reads its own clock (`tc`), and on a flagged beat the feature
timestamp `tf` is recorded by `TempoEstimator.add_beat`. -/
def processFrame (bd : BeatDetector) (te : TempoEstimator)
    (tf tc : ℚ) (chunk : List ℚ) : BeatDetector × TempoEstimator :=
  let r := detect_beat bd tc chunk
  (r.2, if r.1 then add_beat te tf else te)

/-- Run the feature-extraction pipeline over frames `(tf, tc, chunk)`. -/
def runPipeline (bd : BeatDetector) (te : TempoEstimator)
    (frames : List (ℚ × ℚ × List ℚ)) : BeatDetector × TempoEstimator :=
  match frames with
  | [] => (bd, te)
  | (tf, tc, chunk) :: rest =>
    let r := processFrame bd te tf tc chunk
    runPipeline r.1 r.2 rest

/-- The interleaved sequence of clock readings a frame list produces:
per frame first the feature timestamp, then the detector's reading. -/
def clockList (frames : List (ℚ × ℚ × List ℚ)) : List ℚ :=
  frames.flatMap (fun f => [f.1, f.2.1])

/-- `AudioProcessor._get_band_energy`: sum the magnitudes whose paired
frequency lies in the band's interval; the mask is
`(freqs >= band[0]) & (freqs <= band[1])`, i.e. the interval is closed. -/
def get_band_energy (magnitude freqs : List ℚ) (band : ℚ × ℚ) : ℚ :=
  ((List.zip freqs magnitude).filter
    (fun p => decide (band.1 ≤ p.1) && decide (p.1 ≤ band.2))).foldr
    (fun p acc => p.2 + acc) 0

/-- Membership of a frequency in a band, exactly the per-element mask of
`_get_band_energy`. -/
def inBand (f : ℚ) (band : ℚ × ℚ) : Bool :=
  decide (band.1 ≤ f) && decide (f ≤ band.2)

/-- The default `FrequencyBands` table. -/
def bassBand : ℚ × ℚ := (20, 250)

/-- Default low-mid band. -/
def lowMidBand : ℚ × ℚ := (250, 500)

/-- Default mid band. -/
def midBand : ℚ × ℚ := (500, 2000)

/-- Default high-mid band. -/
def highMidBand : ℚ × ℚ := (2000, 4000)

/-- Default treble band. -/
def trebleBand : ℚ × ℚ := (4000, 20000)

/-- Synthetic frame sequence for the sustained-spike scenario: 12 quiet frames
(energy 4) followed by 8 frames of a sustained spike 50% above the baseline
(energy 6), 0.01 s apart starting at t = 1. -/
def spikeFrames : List (ℚ × List ℚ) :=
  (List.range 20).map (fun k => (1 + (k : ℚ)/100, if k < 12 then [2] else [1, 1, 2]))

/-- Detector state with a 6-frame quiet history (shorter than the 10 frames
the code requires before it will flag anything). -/
def shortHistState : BeatDetector := ⟨0, [1, 1, 1, 1, 1, 1]⟩

/-- Detector state with a 12-frame quiet history and a beat last flagged at
t = 1. -/
def refractoryState : BeatDetector := ⟨1, [4, 4, 4, 4, 4, 4, 4, 4, 4, 4, 4, 4]⟩

/-! ## Effect engine (`app_lite.py`) -/

/-- A JSON-ish value appearing in a light-state dict. -/
inductive Val where
  | vBool (b : Bool)
  | vInt (n : ℤ)
deriving DecidableEq

/-- A Python dict literal, modelled as an association list in literal order;
later duplicate keys override earlier ones, which `dictGet` realizes by
returning the last matching entry. -/
abbrev Dict := List (String × Val)

/-- Look a key up in a dict literal: the last occurrence wins, as in Python
`\x7b'on': True, **color, 'bri': 254\x7d`. -/
def dictGet (key : String) (d : Dict) : Option Val :=
  ((d.filter (fun p => p.1 == key)).getLast?).map (fun p => p.2)

/-- One command sent to the bridge: the REST endpoint and the state body. -/
structure Cmd where
  endpoint : String
  body : Dict
deriving DecidableEq

/-- A color entry of the advanced strobe's color sequence. -/
structure Color where
  hue : ℤ
  sat : ℤ
  bri : ℤ
deriving DecidableEq

/-- Configuration of `start_advanced_strobe` after reading the request dict. -/
structure AdvConfig where
  target_type : String
  target_id : String
  duration : ℚ
  frequency : ℚ
  hue : ℤ
  sat : ℤ
  bri : ℤ
  mode : String
  colors : List Color
deriving DecidableEq

/-- `start_advanced_strobe` duration validation:
`if duration > 0: duration = max(1, min(300, duration))`. -/
def adv_clamp_duration (d : ℚ) : ℚ := if 0 < d then max 1 (min 300 d) else d

/-- `start_advanced_strobe` frequency validation:
`frequency = max(0.1, min(10.0, frequency))`. -/
def adv_clamp_frequency (f : ℚ) : ℚ := max (1/10) (min 10 f)

/-- The derived identity of an advanced strobe:
`f"advanced_strobe_{target_type}_{target_id}_{int(frequency*10)}"` with the
already-clamped frequency. -/
def adv_effect_id (cfg : AdvConfig) : String :=
  "advanced_strobe_" ++ cfg.target_type ++ "_" ++ cfg.target_id ++ "_"
    ++ toString ⌊adv_clamp_frequency cfg.frequency * 10⌋

/-- Result of a start request. -/
inductive StartResult where
  | started (effect_id : String)
  | alreadyRunning (effect_id : String)
deriving DecidableEq

/-- The admission step of `start_advanced_strobe` on the `running_effects`
registry (modelled by its key list): reject when the identity is present,
otherwise insert it and report success. -/
def start_advanced_strobe (reg : List String) (cfg : AdvConfig) :
    StartResult × List String :=
  let eid := adv_effect_id cfg
  if eid ∈ reg then (.alreadyRunning eid, reg)
  else (.started eid, eid :: reg)

/-- The rainbow color sequence of `advanced_strobe_effect`. -/
def rainbow_sequence (bri : ℤ) : List Color :=
  [⟨0, 254, bri⟩, ⟨10922, 254, bri⟩, ⟨46920, 254, bri⟩,
   ⟨21845, 254, bri⟩, ⟨54613, 254, bri⟩, ⟨32768, 254, bri⟩]

/-- The color sequence `advanced_strobe_effect` builds from its mode. -/
def adv_color_sequence (cfg : AdvConfig) : List Color :=
  if cfg.mode = "single" then [⟨cfg.hue, cfg.sat, cfg.bri⟩]
  else if cfg.mode = "multi" ∧ cfg.colors ≠ [] then cfg.colors
  else if cfg.mode = "rainbow" then rainbow_sequence cfg.bri
  else [⟨cfg.hue, cfg.sat, cfg.bri⟩]

/-- The color used in cycle `i`: `color_sequence[color_index % len]`, where
`color_index` advances once per cycle in the multi/rainbow modes and stays 0
otherwise. -/
def adv_cycle_color (cfg : AdvConfig) (i : ℕ) : Color :=
  let seq := adv_color_sequence cfg
  let idx := if cfg.mode = "multi" ∨ cfg.mode = "rainbow" then i else 0
  seq.getD (idx % seq.length) ⟨cfg.hue, cfg.sat, cfg.bri⟩

/-- The "on" body of `advanced_strobe_effect`, in dict-literal order:
`\x7b'on': True, **current_color, 'bri': 254, 'transitiontime': 0\x7d`. -/
def adv_on_state (c : Color) : Dict :=
  [("on", .vBool true), ("hue", .vInt c.hue), ("sat", .vInt c.sat),
   ("bri", .vInt c.bri), ("bri", .vInt 254), ("transitiontime", .vInt 0)]

/-- The "off" body of `advanced_strobe_effect`:
`\x7b'on': False, 'transitiontime': 0\x7d`. -/
def adv_off_state : Dict := [("on", .vBool false), ("transitiontime", .vInt 0)]

/-- Endpoint for a single light's state. -/
def light_state_endpoint (light_id : String) : String :=
  "lights/" ++ light_id ++ "/state"

/-- The endpoint `advanced_strobe_effect` uses for a non-`all` target:
`f"{target_type}s/{target_id}/..."` with `action` for groups, `state`
otherwise. -/
def adv_target_endpoint (cfg : AdvConfig) : String :=
  cfg.target_type ++ "s/" ++ cfg.target_id ++ "/"
    ++ (if cfg.target_type = "group" then "action" else "state")

/-- The "on" commands of one advanced-strobe cycle: one per light for target
`all`, else a single command to the target endpoint. -/
def adv_on_cmds (lights : List String) (cfg : AdvConfig) (c : Color) : List Cmd :=
  if cfg.target_type = "all" then
    lights.map (fun l => ⟨light_state_endpoint l, adv_on_state c⟩)
  else [⟨adv_target_endpoint cfg, adv_on_state c⟩]

/-- The "off" commands of one advanced-strobe cycle. -/
def adv_off_cmds (lights : List String) (cfg : AdvConfig) : List Cmd :=
  if cfg.target_type = "all" then
    lights.map (fun l => ⟨light_state_endpoint l, adv_off_state⟩)
  else [⟨adv_target_endpoint cfg, adv_off_state⟩]

/-- One full cycle of `advanced_strobe_effect`: switch on with the cycle's
color, then switch off. -/
def adv_cycle_cmds (lights : List String) (cfg : AdvConfig) (i : ℕ) : List Cmd :=
  adv_on_cmds lights cfg (adv_cycle_color cfg i) ++ adv_off_cmds lights cfg

/-- The command stream of `n` full cycles of the advanced strobe loop. -/
def adv_loop_cmds (lights : List String) (cfg : AdvConfig) (n : ℕ) : List Cmd :=
  (List.range n).flatMap (adv_cycle_cmds lights cfg)

/-- The `finally` block of `advanced_strobe_effect`: if the identity is still
registered, delete it (and record usage); no light command is issued. -/
def adv_finally (reg : List String) (eid : String) : List String × List Cmd :=
  if eid ∈ reg then (reg.erase eid, []) else (reg, [])

/-- A full run of the advanced strobe generator: `n` complete cycles followed
by the `finally` block; returns the final registry and the emitted commands. -/
def adv_run (lights : List String) (cfg : AdvConfig) (n : ℕ)
    (reg : List String) : List String × List Cmd :=
  let f := adv_finally reg (adv_effect_id cfg)
  (f.1, adv_loop_cmds lights cfg n ++ f.2)

/-- The loop guard of the strobe generators:
`(duration == 0 or time.time() - start_time < duration) and effect_id in
running_effects`. -/
def adv_loop_continues (duration elapsed : ℚ) (inReg : Bool) : Bool :=
  (decide (duration = 0) || decide (elapsed < duration)) && inReg

/-- Program-order events of a `start_advanced_strobe` call whose generator
thread later emits `n` cycles: the registry insertion strictly precedes
every emitted command. -/
inductive StartEvent where
  | insertReg (effect_id : String)
  | emit (c : Cmd)
deriving DecidableEq

/-- Event trace of `start_advanced_strobe`: on admission the identity is
inserted into `running_effects` before the generator thread is started, so
the insertion event precedes every command the thread emits. -/
def start_advanced_strobe_events (reg : List String) (cfg : AdvConfig)
    (lights : List String) (n : ℕ) : List StartEvent :=
  let eid := adv_effect_id cfg
  if eid ∈ reg then []
  else .insertReg eid :: (adv_loop_cmds lights cfg n).map .emit

/-- `advanced_strobe_effect` cycle timing: `cycle_time = 1.0 / frequency`. -/
def adv_cycle_time (f : ℚ) : ℚ := 1 / f

/-- `on_time = cycle_time * 0.25`. -/
def adv_on_time (f : ℚ) : ℚ := adv_cycle_time f * (1/4)

/-- `off_time = cycle_time * 0.75`. -/
def adv_off_time (f : ℚ) : ℚ := adv_cycle_time f * (3/4)

/-- Configuration of `start_ultra_strobe_effect`. -/
structure UltraConfig where
  target_type : String
  target_id : String
  duration : ℚ
  frequency : ℚ
  hue : ℤ
  sat : ℤ
  bri : ℤ
  mode : String
  intensity : ℚ
deriving DecidableEq

/-- `start_ultra_strobe` endpoint frequency validation:
`frequency = max(1, min(25, frequency))`. -/
def ultra_clamp_frequency (f : ℚ) : ℚ := max 1 (min 25 f)

/-- The epilepsy warning of the ultra endpoint is logged exactly when the
clamped frequency exceeds 15 Hz. -/
def ultra_warning (f : ℚ) : Bool := decide (15 < ultra_clamp_frequency f)

/-- `start_ultra_strobe` endpoint duration validation:
`duration = min(60, duration)`. -/
def ultra_endpoint_duration (d : ℚ) : ℚ := min 60 d

/-- The derived identity of an ultra strobe:
`f"ultra_strobe_{mode}_{target_type}_{target_id}_{int(frequency*10)}"`. -/
def ultra_effect_id (cfg : UltraConfig) : String :=
  "ultra_strobe_" ++ cfg.mode ++ "_" ++ cfg.target_type ++ "_" ++ cfg.target_id
    ++ "_" ++ toString ⌊cfg.frequency * 10⌋

/-- The admission step of `start_ultra_strobe_effect`, same shape as the
advanced strobe's. -/
def start_ultra_strobe_effect (reg : List String) (cfg : UltraConfig) :
    StartResult × List String :=
  let eid := ultra_effect_id cfg
  if eid ∈ reg then (.alreadyRunning eid, reg)
  else (.started eid, eid :: reg)

/-- `ultra_strobe_worker` ultra-mode timing: `flash_duration = 0.03`. -/
def ultra_flash_duration : ℚ := 3/100

/-- `pause_duration = max(0.01, (1.0 / frequency) - flash_duration)`. -/
def ultra_pause_duration (f : ℚ) : ℚ := max (1/100) (1/f - ultra_flash_duration)

/-- A `batch_lights_control(state, 'all')` command: `groups/0/action`. -/
def batch_all_cmd (state : Dict) : Cmd := ⟨"groups/0/action", state⟩

/-- `ultra_fast_flash`: flash on and off via batch control, both with
`transitiontime: 0` merged over the given states. -/
def ultra_fast_flash (lights_state off_state : Dict) : List Cmd :=
  [batch_all_cmd (lights_state ++ [("transitiontime", .vInt 0)]),
   batch_all_cmd (off_state ++ [("transitiontime", .vInt 0)])]

/-- The "on" body `ultra_strobe_worker` builds for the ultra mode:
`\x7b'on': True, 'hue': hue, 'sat': sat, 'bri': bri\x7d` with
`bri = int(config.get('bri', 254) * intensity)`. -/
def ultra_light_state (cfg : UltraConfig) : Dict :=
  [("on", .vBool true), ("hue", .vInt cfg.hue), ("sat", .vInt cfg.sat),
   ("bri", .vInt ⌊(cfg.bri : ℚ) * cfg.intensity⌋)]

/-- The "off" body of `ultra_strobe_worker`: `\x7b'on': False\x7d`. -/
def ultra_off_state : Dict := [("on", .vBool false)]

/-- The command stream of `n` iterations of the ultra-mode loop of
`ultra_strobe_worker`: each iteration is one `ultra_fast_flash` of the light
state against the off state. -/
def ultra_loop_cmds (cfg : UltraConfig) (n : ℕ) : List Cmd :=
  (List.range n).flatMap
    (fun _ => ultra_fast_flash (ultra_light_state cfg) ultra_off_state)

/-- The slow all-off command of the ultra teardown:
`batch_lights_control(\x7b'on': False, 'transitiontime': 10\x7d, 'all')`. -/
def ultra_slow_off_cmd : Cmd :=
  batch_all_cmd [("on", .vBool false), ("transitiontime", .vInt 10)]

/-- The `finally` block of `ultra_strobe_worker`: only if the identity is
still registered, delete it and issue the slow all-off command. -/
def ultra_finally (reg : List String) (eid : String) : List String × List Cmd :=
  if eid ∈ reg then (reg.erase eid, [ultra_slow_off_cmd]) else (reg, [])

/-- Event trace of `start_ultra_strobe_effect`, same program order as the
advanced strobe's: on admission the identity is inserted into
`running_effects` before the worker thread is started, so the insertion event
precedes every command the worker emits. -/
def start_ultra_strobe_effect_events (reg : List String) (cfg : UltraConfig)
    (n : ℕ) : List StartEvent :=
  let eid := ultra_effect_id cfg
  if eid ∈ reg then []
  else .insertReg eid :: (ultra_loop_cmds cfg n).map .emit

/-- Result of `stop_effect`. -/
inductive StopResult where
  | ok
  | notFound
deriving DecidableEq

/-- `stop_effect`: delete a present identity and report success, else report
`Effect not found` and leave the registry unchanged. -/
def stop_effect (reg : List String) (effect_id : String) :
    StopResult × List String :=
  if effect_id ∈ reg then (.ok, reg.erase effect_id) else (.notFound, reg)

/-- `get_active_effects`: the list of running effect identities. -/
def get_active_effects (reg : List String) : List String := reg

/-- Detects a command whose body ends up `off` with a strictly positive
(i.e. slow) transition time. -/
def is_slow_off (c : Cmd) : Bool :=
  (dictGet "on" c.body == some (.vBool false)) &&
    (match dictGet "transitiontime" c.body with
     | some (.vInt t) => decide (0 < t)
     | _ => false)

/-- The end-to-end scenario A configuration: bounded strobe, duration 2 s,
frequency 10 Hz, target `all`. -/
def cfgA : AdvConfig := ⟨"all", "all", 2, 10, 0, 254, 254, "single", []⟩

/-- Two lights, as returned by `get_lights_raw` in scenario A. -/
def lightsA : List String := ["1", "2"]

/-- Scenario A registry: the strobe's identity is registered. -/
def regA : List String := [adv_effect_id cfgA]

/-- A concrete advanced-strobe configuration (the endpoint defaults). -/
def cfgW : AdvConfig := ⟨"all", "all", 0, 2, 0, 254, 254, "single", []⟩

/-- A concrete ultra-strobe configuration (the endpoint defaults). -/
def ultraW : UltraConfig := ⟨"all", "all", 10, 10, 0, 254, 254, "ultra", 1⟩

/-- A concrete advanced-strobe configuration with a non-maximal brightness
(bri = 7), to exhibit the brightness override. -/
def cfgB : AdvConfig := ⟨"all", "all", 0, 2, 5, 6, 7, "single", []⟩

/-! ## Helper lemmas for the tempo estimator -/

/-- `listDiff` on a cons-cons list. -/
theorem listDiff_cons_cons (a b : ℚ) (t : List ℚ) :
    listDiff (a :: b :: t) = (b - a) :: listDiff (b :: t) := rfl

/-- The consecutive differences of a strictly increasing list are positive. -/
theorem listDiff_pos : ∀ (l : List ℚ), l.Chain' (· < ·) →
    ∀ x ∈ listDiff l, 0 < x
  | [], _, x, hx => by simp [listDiff] at hx
  | [_], _, x, hx => by simp [listDiff] at hx
  | a :: b :: t, h, x, hx => by
    rw [listDiff_cons_cons] at hx
    rcases List.mem_cons.mp hx with h1 | h1
    · have hab : a < b := (List.chain'_cons.mp h).1
      rw [h1]
      linarith
    · exact listDiff_pos (b :: t) (List.chain'_cons.mp h).2 x h1

/-- Length of `listDiff`. -/
theorem listDiff_length (l : List ℚ) : (listDiff l).length = l.length - 1 := by
  cases l with
  | nil => simp [listDiff]
  | cons a t => simp [listDiff]

/-- The median of a nonempty list of positive rationals is positive. -/
theorem listMedian_pos {xs : List ℚ} (hne : xs ≠ []) (hpos : ∀ x ∈ xs, 0 < x) :
    0 < listMedian xs := by
  simp only [listMedian]
  have hmem : ∀ x ∈ xs.mergeSort (fun a b => decide (a ≤ b)), 0 < x :=
    fun x hx => hpos x (List.mem_mergeSort.mp hx)
  have hn : (xs.mergeSort (fun a b => decide (a ≤ b))).length ≠ 0 := by
    rw [List.length_mergeSort]
    simpa using (List.length_pos.mpr hne).ne'
  set s := xs.mergeSort (fun a b => decide (a ≤ b)) with hs
  split_ifs with h0 hodd
  · exact absurd h0 hn
  · have hlt : s.length / 2 < s.length :=
      Nat.div_lt_self (Nat.pos_of_ne_zero hn) one_lt_two
    rw [List.getD_eq_getElem _ _ hlt]
    exact hmem _ (List.getElem_mem hlt)
  · have h2 : 2 ≤ s.length := by omega
    have hlt1 : s.length / 2 - 1 < s.length := by omega
    have hlt2 : s.length / 2 < s.length := by omega
    rw [List.getD_eq_getElem _ _ hlt1, List.getD_eq_getElem _ _ hlt2]
    have p1 := hmem _ (List.getElem_mem hlt1)
    have p2 := hmem _ (List.getElem_mem hlt2)
    positivity

/-- The median of a constant three-element list. -/
theorem listMedian_three_const (c : ℚ) : listMedian [c, c, c] = c := by
  have hsort : ([c, c, c] : List ℚ).mergeSort (fun a b => decide (a ≤ b)) = [c, c, c] :=
    List.mergeSort_of_sorted (by simp)
  simp [listMedian, hsort]

/-- The median of a constant five-element list. -/
theorem listMedian_five_const (c : ℚ) : listMedian [c, c, c, c, c] = c := by
  have hsort : ([c, c, c, c, c] : List ℚ).mergeSort (fun a b => decide (a ≤ b))
      = [c, c, c, c, c] := List.mergeSort_of_sorted (by simp)
  simp [listMedian, hsort]

/-- C3: `estimate_bpm` returns 0 below 4 recorded beats; on a recorded
(strictly increasing) window of at least 4 beats it returns 60 divided by the
median inter-beat interval, clamped to [60, 200]; beats spaced exactly 0.5 s
apart yield 120 BPM and 6 beats spaced exactly 0.4 s apart yield 150 BPM. -/
theorem c3_estimate_bpm_matches_spec :
    (∀ s : TempoEstimator, s.beat_times.length < 4 → estimate_bpm s = 0) ∧
    (∀ s : TempoEstimator, 4 ≤ s.beat_times.length → s.beat_times.Chain' (· < ·) →
        estimate_bpm s = max 60 (min 200 (60 / listMedian (listDiff s.beat_times)))) ∧
    estimate_bpm ⟨[0, 1/2, 1, 3/2]⟩ = 120 ∧
    estimate_bpm ⟨[0, 2/5, 4/5, 6/5, 8/5, 2]⟩ = 150 := by
  refine ⟨?_, ?_, ?_, ?_⟩
  · intro s h
    simp [estimate_bpm, h]
  · intro s hlen hchain
    have hne : listDiff s.beat_times ≠ [] := by
      intro hnil
      have := listDiff_length s.beat_times
      rw [hnil] at this
      simp at this
      omega
    have hmed : 0 < listMedian (listDiff s.beat_times) :=
      listMedian_pos hne (listDiff_pos s.beat_times hchain)
    have h4 : ¬ s.beat_times.length < 4 := by omega
    simp only [estimate_bpm]
    rw [if_neg h4, if_pos hmed]
  · have hd : listDiff [(0 : ℚ), 1/2, 1, 3/2] = [1/2, 1/2, 1/2] := by
      simp [listDiff]
      norm_num
    simp only [estimate_bpm]
    norm_num [hd, listMedian_three_const]
  · have hd : listDiff [(0 : ℚ), 2/5, 4/5, 6/5, 8/5, 2] = [2/5, 2/5, 2/5, 2/5, 2/5] := by
      simp [listDiff]
      norm_num
    simp only [estimate_bpm]
    norm_num [hd, listMedian_five_const]

/-- Witness for C3: the general clause applied to the 6-beat window at 0.4 s
spacing, with both hypotheses discharged concretely. -/
theorem c3_estimate_bpm_matches_spec_witness :
    4 ≤ ([(0 : ℚ), 2/5, 4/5, 6/5, 8/5, 2] : List ℚ).length ∧
    estimate_bpm ⟨[0, 2/5, 4/5, 6/5, 8/5, 2]⟩
      = max 60 (min 200 (60 / listMedian (listDiff [0, 2/5, 4/5, 6/5, 8/5, 2]))) :=
  ⟨by norm_num,
   c3_estimate_bpm_matches_spec.2.1 ⟨[0, 2/5, 4/5, 6/5, 8/5, 2]⟩ (by norm_num)
     (by norm_num [List.chain'_cons])⟩

/-! ## Helper lemmas for the beat detector -/

/-- When `detect_beat` fires, strictly more than the 0.2 s refractory interval
has elapsed, and the stored `last_beat_time` becomes the firing time. -/
theorem detect_beat_fired (s : BeatDetector) (t : ℚ) (chunk : List ℚ)
    (h : (detect_beat s t chunk).1 = true) :
    s.last_beat_time + 1/5 < t ∧ (detect_beat s t chunk).2.last_beat_time = t := by
  simp only [detect_beat] at h ⊢
  split_ifs at h ⊢ with h1 h2
  exact ⟨by linarith [h2.2], rfl⟩

/-- When `detect_beat` does not fire, `last_beat_time` is unchanged. -/
theorem detect_beat_not_fired (s : BeatDetector) (t : ℚ) (chunk : List ℚ)
    (h : (detect_beat s t chunk).1 = false) :
    (detect_beat s t chunk).2.last_beat_time = s.last_beat_time := by
  simp only [detect_beat] at h ⊢
  split_ifs at h ⊢ with h1 h2
  all_goals simp_all

/-- Every flagged beat of a run lies strictly more than the refractory
interval after the incoming `last_beat_time`, and consecutive (hence all)
flagged beats are more than 0.2 s apart. -/
theorem runDetector_flags (frames : List (ℚ × List ℚ)) : ∀ (s : BeatDetector),
    (∀ x ∈ (runDetector s frames).2, s.last_beat_time + 1/5 < x) ∧
    ((runDetector s frames).2).Pairwise (fun a b => a + 1/5 < b) := by
  induction frames with
  | nil => intro s; simp [runDetector]
  | cons f rest ih =>
    intro s
    obtain ⟨t, chunk⟩ := f
    simp only [runDetector]
    obtain ⟨ihmem, ihpw⟩ := ih (detect_beat s t chunk).2
    by_cases hb : (detect_beat s t chunk).1 = true
    · obtain ⟨hlt, hlast⟩ := detect_beat_fired s t chunk hb
      rw [hlast] at ihmem
      rw [hb, if_pos rfl]
      constructor
      · intro x hx
        rcases List.mem_append.mp hx with hx1 | hx2
        · rw [List.mem_singleton.mp hx1]
          exact hlt
        · have := ihmem x hx2
          linarith
      · rw [List.singleton_append]
        exact List.pairwise_cons.mpr ⟨ihmem, ihpw⟩
    · rw [Bool.not_eq_true] at hb
      rw [detect_beat_not_fired s t chunk hb] at ihmem
      rw [hb, if_neg Bool.false_ne_true, List.nil_append]
      exact ⟨ihmem, ihpw⟩

set_option maxRecDepth 8000 in
set_option maxHeartbeats 4000000 in
/-- Evaluating the sustained-spike scenario: of the 20 frames exactly one beat
is flagged, at t = 1.13 s (the second spike frame), and the spike persisting
through the following frames (all within the 0.2 s refractory interval)
produces no further beat. -/
theorem spike_run_eval : (runDetector BeatDetector.init spikeFrames).2 = [113/100] := by
  norm_num [spikeFrames, List.range_succ, runDetector, detect_beat, postHistory,
    chunkEnergy, listMean, BeatDetector.init]

/-- C4 counterexample: the claim's two conditions (recent-mean onset exceeded
and the refractory interval elapsed) do not characterize the code's beat flag.
(a) With only 6 frames of quiet history, a huge spike satisfies both claimed
conditions yet `detect_beat` does not flag (the code additionally requires at
least 10 frames of history).  (b) When exactly 0.2 s has elapsed — so "at
least the refractory interval has elapsed" holds — and the onset condition
holds over at least 10 frames, the code still does not flag, because it
requires strictly more than 0.2 s. -/
theorem c4_beat_conditions_counterexample :
    ((detect_beat shortHistState 7 [10]).1 = false ∧
      listMean ((postHistory shortHistState [10]).take
          ((postHistory shortHistState [10]).length - 3)) * (1 + 3/10)
        < listMean ((postHistory shortHistState [10]).drop
          ((postHistory shortHistState [10]).length - 3)) ∧
      (1/5 : ℚ) ≤ 7 - shortHistState.last_beat_time) ∧
    ((detect_beat refractoryState (6/5) [10]).1 = false ∧
      10 ≤ (postHistory refractoryState [10]).length ∧
      listMean ((postHistory refractoryState [10]).take
          ((postHistory refractoryState [10]).length - 3)) * (1 + 3/10)
        < listMean ((postHistory refractoryState [10]).drop
          ((postHistory refractoryState [10]).length - 3)) ∧
      (1/5 : ℚ) ≤ 6/5 - refractoryState.last_beat_time) := by
  refine ⟨⟨?_, ?_, ?_⟩, ⟨?_, ?_, ?_, ?_⟩⟩ <;>
    norm_num [detect_beat, postHistory, chunkEnergy, listMean,
      shortHistState, refractoryState]

/-- C4 (amended): a beat is flagged exactly when the post-append (trimmed)
energy history holds at least 10 entries, the mean of its 3 most recent
entries exceeds the mean of the preceding entries by more than the 30% onset
threshold, and strictly more than the 0.2 s refractory interval has elapsed
since the last flagged beat; a sustained spike 50% above a quiet baseline
yields exactly one beat; and the flagged beats of any run are pairwise more
than the refractory interval apart. -/
theorem c4_detect_beat_characterization :
    (∀ (s : BeatDetector) (t : ℚ) (chunk : List ℚ),
        (detect_beat s t chunk).1 = true ↔
          10 ≤ (postHistory s chunk).length ∧
          listMean ((postHistory s chunk).take ((postHistory s chunk).length - 3))
              * (1 + 3/10)
            < listMean ((postHistory s chunk).drop ((postHistory s chunk).length - 3)) ∧
          1/5 < t - s.last_beat_time) ∧
    (runDetector BeatDetector.init spikeFrames).2 = [113/100] ∧
    (∀ (s : BeatDetector) (frames : List (ℚ × List ℚ)),
        ((runDetector s frames).2).Pairwise (fun a b => a + 1/5 < b)) := by
  refine ⟨?_, spike_run_eval, fun s frames => (runDetector_flags frames s).2⟩
  intro s t chunk
  simp only [detect_beat]
  split_ifs with h1 h2 <;> simp_all

/-- Witness for C4: the characterization applied at a concrete state where all
three conditions hold, so the detector flags a beat. -/
theorem c4_detect_beat_characterization_witness :
    (detect_beat refractoryState (3/2) [10]).1 = true :=
  (c4_detect_beat_characterization.1 refractoryState (3/2) [10]).mpr
    ⟨by norm_num [postHistory, chunkEnergy, refractoryState],
     by norm_num [postHistory, chunkEnergy, listMean, refractoryState],
     by norm_num [refractoryState]⟩

/-- `detect_beat` always stores exactly the post-append (trimmed) history. -/
theorem detect_beat_hist (s : BeatDetector) (t : ℚ) (chunk : List ℚ) :
    (detect_beat s t chunk).2.energy_history = postHistory s chunk := by
  simp only [detect_beat]
  split_ifs <;> rfl

/-- Below the bound the append is kept whole. -/
theorem postHistory_of_lt {s : BeatDetector} (chunk : List ℚ)
    (h : s.energy_history.length < 43) :
    postHistory s chunk = s.energy_history ++ [chunkEnergy chunk] := by
  simp only [postHistory]
  rw [if_neg]
  simp only [List.length_append, List.length_singleton]
  omega

/-- At the bound the oldest entry is evicted. -/
theorem postHistory_of_eq {s : BeatDetector} (chunk : List ℚ)
    (h : s.energy_history.length = 43) :
    postHistory s chunk = s.energy_history.tail ++ [chunkEnergy chunk] := by
  simp only [postHistory]
  rw [if_pos]
  · cases hh : s.energy_history with
    | nil => rw [hh] at h; simp at h
    | cons a tl => simp
  · simp only [List.length_append, List.length_singleton]
    omega

/-- C7: the beat detector's energy history never exceeds 43 entries and the
tempo estimator's beat window never exceeds 100 entries, the oldest entry
being evicted when a bound would be exceeded; and over any pipeline run whose
clock readings strictly increase, the stored beat timestamps are strictly
increasing. -/
theorem c7_bounded_windows_monotone :
    (∀ (s : BeatDetector) (t : ℚ) (chunk : List ℚ),
        s.energy_history.length ≤ 43 →
          (detect_beat s t chunk).2.energy_history.length ≤ 43 ∧
          (s.energy_history.length = 43 →
            (detect_beat s t chunk).2.energy_history
              = s.energy_history.tail ++ [chunkEnergy chunk]) ∧
          (s.energy_history.length < 43 →
            (detect_beat s t chunk).2.energy_history
              = s.energy_history ++ [chunkEnergy chunk])) ∧
    (∀ (s : TempoEstimator) (t : ℚ),
        s.beat_times.length ≤ 100 →
          (add_beat s t).beat_times.length ≤ 100 ∧
          (s.beat_times.length = 100 →
            (add_beat s t).beat_times = s.beat_times.tail ++ [t]) ∧
          (s.beat_times.length < 100 →
            (add_beat s t).beat_times = s.beat_times ++ [t])) ∧
    (∀ (bd : BeatDetector) (te : TempoEstimator) (frames : List (ℚ × ℚ × List ℚ)),
        (clockList frames).Pairwise (· < ·) →
        te.beat_times.Pairwise (· < ·) →
        (∀ x ∈ te.beat_times, ∀ u ∈ clockList frames, x < u) →
        ((runPipeline bd te frames).2.beat_times).Pairwise (· < ·)) := by
  refine ⟨?_, ?_, ?_⟩
  · intro s t chunk hle
    rw [detect_beat_hist]
    rcases lt_or_eq_of_le hle with hlt | heq
    · rw [postHistory_of_lt chunk hlt]
      refine ⟨?_, ?_, fun _ => rfl⟩
      · simp only [List.length_append, List.length_singleton]
        omega
      · intro h43
        omega
    · rw [postHistory_of_eq chunk heq]
      refine ⟨?_, fun _ => rfl, ?_⟩
      · simp only [List.length_append, List.length_singleton, List.length_tail]
        omega
      · intro h43
        omega
  · intro s t hle
    simp only [add_beat]
    rcases lt_or_eq_of_le hle with hlt | heq
    · rw [if_neg]
      · refine ⟨?_, ?_, fun _ => rfl⟩
        · simp only [List.length_append, List.length_singleton]
          omega
        · intro h100
          omega
      · simp only [List.length_append, List.length_singleton]
        omega
    · rw [if_pos]
      · refine ⟨?_, ?_, ?_⟩
        · simp only [List.length_tail, List.length_append, List.length_singleton]
          omega
        · intro _
          cases hh : s.beat_times with
          | nil => rw [hh] at heq; simp at heq
          | cons a tl => simp
        · intro h100
          omega
      · simp only [List.length_append, List.length_singleton]
        omega
  · intro bd te frames
    induction frames generalizing bd te with
    | nil =>
      intro _ hte _
      simpa [runPipeline] using hte
    | cons f rest ih =>
      obtain ⟨tf, tc, chunk⟩ := f
      intro hpw hte hmem
      have hclock : clockList ((tf, tc, chunk) :: rest) = tf :: tc :: clockList rest := rfl
      rw [hclock] at hpw hmem
      have hpw1 := List.pairwise_cons.mp hpw
      have hpw2 := List.pairwise_cons.mp hpw1.2
      have htf_lt : ∀ u ∈ clockList rest, tf < u :=
        fun u hu => hpw1.1 u (List.mem_cons_of_mem _ hu)
      simp only [runPipeline, processFrame]
      by_cases hb : (detect_beat bd tc chunk).1 = true
      · rw [hb, if_pos rfl]
        have hp : (te.beat_times ++ [tf]).Pairwise (· < ·) := by
          refine List.pairwise_append.mpr ⟨hte, by simp, ?_⟩
          intro a ha b hbmem
          rw [List.mem_singleton.mp hbmem]
          exact hmem a ha tf (List.mem_cons_self _ _)
        have hsub : (add_beat te tf).beat_times ⊆ te.beat_times ++ [tf] := by
          simp only [add_beat]
          split_ifs
          · exact (List.tail_sublist _).subset
          · exact fun x hx => hx
        have hpres : ((add_beat te tf).beat_times).Pairwise (· < ·) := by
          simp only [add_beat]
          split_ifs
          · exact hp.sublist (List.tail_sublist _)
          · exact hp
        apply ih _ _ hpw2.2 hpres
        intro x hx u hu
        rcases List.mem_append.mp (hsub hx) with hx1 | hx2
        · exact hmem x hx1 u (List.mem_cons_of_mem _ (List.mem_cons_of_mem _ hu))
        · rw [List.mem_singleton.mp hx2]
          exact htf_lt u hu
      · rw [Bool.not_eq_true] at hb
        rw [hb, if_neg Bool.false_ne_true]
        apply ih _ _ hpw2.2 hte
        intro x hx u hu
        exact hmem x hx u (List.mem_cons_of_mem _ (List.mem_cons_of_mem _ hu))

/-- Witness for C7: the three clauses applied at concrete small states with
all hypotheses discharged. -/
theorem c7_bounded_windows_monotone_witness :
    (detect_beat BeatDetector.init 1 [1]).2.energy_history.length ≤ 43 ∧
    (add_beat ⟨[]⟩ 1).beat_times.length ≤ 100 ∧
    ((runPipeline BeatDetector.init ⟨[]⟩ []).2.beat_times).Pairwise
      ((· < ·) : ℚ → ℚ → Prop) :=
  ⟨(c7_bounded_windows_monotone.1 BeatDetector.init 1 [1]
      (by simp [BeatDetector.init])).1,
   (c7_bounded_windows_monotone.2.1 ⟨[]⟩ 1 (by simp)).1,
   c7_bounded_windows_monotone.2.2 BeatDetector.init ⟨[]⟩ []
     (by simp [clockList]) (by simp) (by simp)⟩

/-- The band-energy fold is the sum of the selected magnitudes. -/
theorem foldr_snd_sum (l : List (ℚ × ℚ)) :
    l.foldr (fun p acc => p.2 + acc) 0 = (l.map Prod.snd).sum := by
  induction l with
  | nil => simp
  | cons p t ih => simp [ih]

/-- C8 counterexample: the default band intervals are closed on both ends
(`>=` and `<=` masks), so the shared boundary frequency 250 Hz is a member of
both the bass band and the low-mid band, and its magnitude is summed into
both band energies — the claimed half-open, non-overlapping layout is false. -/
theorem c8_closed_bands_counterexample :
    inBand 250 bassBand = true ∧ inBand 250 lowMidBand = true ∧
    get_band_energy [5] [250] bassBand = 5 ∧
    get_band_energy [5] [250] lowMidBand = 5 := by
  refine ⟨?_, ?_, ?_, ?_⟩ <;>
    norm_num [inBand, bassBand, lowMidBand, get_band_energy, List.filter]

/-- C8 (amended): per-band energies over a magnitude spectrum (absolute
values of a transform) are non-negative; the default band intervals are
closed, adjacent bands overlapping exactly in their shared boundary frequency
(250, 500, 2000, 4000 Hz) while non-adjacent bands are disjoint. -/
theorem c8_band_energy_amended :
    (∀ (spectrum freqs : List ℚ) (band : ℚ × ℚ),
        0 ≤ get_band_energy (spectrum.map (fun x => |x|)) freqs band) ∧
    (∀ f : ℚ, inBand f bassBand = true → inBand f lowMidBand = true → f = 250) ∧
    (∀ f : ℚ, inBand f lowMidBand = true → inBand f midBand = true → f = 500) ∧
    (∀ f : ℚ, inBand f midBand = true → inBand f highMidBand = true → f = 2000) ∧
    (∀ f : ℚ, inBand f highMidBand = true → inBand f trebleBand = true → f = 4000) ∧
    (∀ f : ℚ, ¬(inBand f bassBand = true ∧ inBand f midBand = true)) ∧
    (∀ f : ℚ, ¬(inBand f bassBand = true ∧ inBand f highMidBand = true)) ∧
    (∀ f : ℚ, ¬(inBand f bassBand = true ∧ inBand f trebleBand = true)) ∧
    (∀ f : ℚ, ¬(inBand f lowMidBand = true ∧ inBand f highMidBand = true)) ∧
    (∀ f : ℚ, ¬(inBand f lowMidBand = true ∧ inBand f trebleBand = true)) ∧
    (∀ f : ℚ, ¬(inBand f midBand = true ∧ inBand f trebleBand = true)) := by
  have hb : ∀ (f : ℚ) (lo hi : ℚ), inBand f (lo, hi) = true ↔ lo ≤ f ∧ f ≤ hi := by
    intro f lo hi
    simp [inBand]
  refine ⟨?_, ?_, ?_, ?_, ?_, ?_, ?_, ?_, ?_, ?_, ?_⟩
  · intro spectrum freqs band
    rw [get_band_energy, foldr_snd_sum]
    apply List.sum_nonneg
    intro x hx
    obtain ⟨p, hp, rfl⟩ := List.mem_map.mp hx
    have hz := List.of_mem_zip (List.mem_of_mem_filter hp)
    obtain ⟨y, _, hy⟩ := List.mem_map.mp hz.2
    rw [← hy]
    exact abs_nonneg y
  · intro f h1 h2
    rw [bassBand, hb] at h1
    rw [lowMidBand, hb] at h2
    linarith
  · intro f h1 h2
    rw [lowMidBand, hb] at h1
    rw [midBand, hb] at h2
    linarith
  · intro f h1 h2
    rw [midBand, hb] at h1
    rw [highMidBand, hb] at h2
    linarith
  · intro f h1 h2
    rw [highMidBand, hb] at h1
    rw [trebleBand, hb] at h2
    linarith
  · rintro f ⟨h1, h2⟩
    rw [bassBand, hb] at h1
    rw [midBand, hb] at h2
    linarith
  · rintro f ⟨h1, h2⟩
    rw [bassBand, hb] at h1
    rw [highMidBand, hb] at h2
    linarith
  · rintro f ⟨h1, h2⟩
    rw [bassBand, hb] at h1
    rw [trebleBand, hb] at h2
    linarith
  · rintro f ⟨h1, h2⟩
    rw [lowMidBand, hb] at h1
    rw [highMidBand, hb] at h2
    linarith
  · rintro f ⟨h1, h2⟩
    rw [lowMidBand, hb] at h1
    rw [trebleBand, hb] at h2
    linarith
  · rintro f ⟨h1, h2⟩
    rw [midBand, hb] at h1
    rw [trebleBand, hb] at h2
    linarith

/-- Witness for C8: the adjacent-overlap clause applied at the boundary
frequency 250 Hz with both membership hypotheses discharged, plus the
non-negativity clause at a concrete spectrum. -/
theorem c8_band_energy_amended_witness :
    (250 : ℚ) = 250 ∧
    0 ≤ get_band_energy ([(-3 : ℚ)].map (fun x => |x|)) [100] bassBand :=
  ⟨c8_band_energy_amended.2.1 250 (by norm_num [inBand, bassBand])
      (by norm_num [inBand, lowMidBand]),
   c8_band_energy_amended.1 [(-3 : ℚ)] [100] bassBand⟩

/-- C1: starting the same derived effect identity twice (for either strobe
generator) admits exactly the first request — which inserts the identity —
and rejects the second without changing the registry; afterwards the active
list holds exactly one entry for that identity, and in program order the
registry insertion precedes every command the generator emits, for the
advanced strobe and for the ultra strobe alike. -/
theorem c1_duplicate_start_admission :
    ∀ (reg : List String) (cfg₁ cfg₂ : AdvConfig) (lights : List String) (n : ℕ)
      (ureg : List String) (u₁ u₂ : UltraConfig),
      adv_effect_id cfg₂ = adv_effect_id cfg₁ →
      adv_effect_id cfg₁ ∉ reg →
      ultra_effect_id u₂ = ultra_effect_id u₁ →
      ultra_effect_id u₁ ∉ ureg →
      ((start_advanced_strobe reg cfg₁).1 = .started (adv_effect_id cfg₁) ∧
       (start_advanced_strobe (start_advanced_strobe reg cfg₁).2 cfg₂).1
         = .alreadyRunning (adv_effect_id cfg₁) ∧
       (start_advanced_strobe (start_advanced_strobe reg cfg₁).2 cfg₂).2
         = (start_advanced_strobe reg cfg₁).2 ∧
       (get_active_effects (start_advanced_strobe reg cfg₁).2).count
         (adv_effect_id cfg₁) = 1 ∧
       start_advanced_strobe_events reg cfg₁ lights n
         = .insertReg (adv_effect_id cfg₁)
             :: (adv_loop_cmds lights cfg₁ n).map .emit) ∧
      ((start_ultra_strobe_effect ureg u₁).1 = .started (ultra_effect_id u₁) ∧
       (start_ultra_strobe_effect (start_ultra_strobe_effect ureg u₁).2 u₂).1
         = .alreadyRunning (ultra_effect_id u₁) ∧
       (start_ultra_strobe_effect (start_ultra_strobe_effect ureg u₁).2 u₂).2
         = (start_ultra_strobe_effect ureg u₁).2 ∧
       (get_active_effects (start_ultra_strobe_effect ureg u₁).2).count
         (ultra_effect_id u₁) = 1 ∧
       start_ultra_strobe_effect_events ureg u₁ n
         = .insertReg (ultra_effect_id u₁)
             :: (ultra_loop_cmds u₁ n).map .emit) := by
  intro reg cfg₁ cfg₂ lights n ureg u₁ u₂ h12 hnot hu12 hunot
  have hadv1 : start_advanced_strobe reg cfg₁
      = (.started (adv_effect_id cfg₁), adv_effect_id cfg₁ :: reg) := by
    simp only [start_advanced_strobe]
    rw [if_neg hnot]
  have hadv2 : start_advanced_strobe (adv_effect_id cfg₁ :: reg) cfg₂
      = (.alreadyRunning (adv_effect_id cfg₂), adv_effect_id cfg₁ :: reg) := by
    simp only [start_advanced_strobe]
    rw [if_pos (show adv_effect_id cfg₂ ∈ adv_effect_id cfg₁ :: reg by
      rw [h12]; exact List.mem_cons_self _ _)]
  have hult1 : start_ultra_strobe_effect ureg u₁
      = (.started (ultra_effect_id u₁), ultra_effect_id u₁ :: ureg) := by
    simp only [start_ultra_strobe_effect]
    rw [if_neg hunot]
  have hult2 : start_ultra_strobe_effect (ultra_effect_id u₁ :: ureg) u₂
      = (.alreadyRunning (ultra_effect_id u₂), ultra_effect_id u₁ :: ureg) := by
    simp only [start_ultra_strobe_effect]
    rw [if_pos (show ultra_effect_id u₂ ∈ ultra_effect_id u₁ :: ureg by
      rw [hu12]; exact List.mem_cons_self _ _)]
  refine ⟨⟨?_, ?_, ?_, ?_, ?_⟩, ?_, ?_, ?_, ?_, ?_⟩
  · rw [hadv1]
  · simp only [hadv1, hadv2, h12]
  · simp only [hadv1, hadv2]
  · simp only [hadv1, get_active_effects, List.count_cons_self]
    rw [List.count_eq_zero.mpr hnot]
  · simp only [start_advanced_strobe_events]
    rw [if_neg hnot]
  · rw [hult1]
  · simp only [hult1, hult2, hu12]
  · simp only [hult1, hult2]
  · simp only [hult1, get_active_effects, List.count_cons_self]
    rw [List.count_eq_zero.mpr hunot]
  · simp only [start_ultra_strobe_effect_events]
    rw [if_neg hunot]

/-- Witness for C1: a duplicated start of the default advanced and ultra
configurations over the empty registry. -/
theorem c1_duplicate_start_admission_witness :
    (start_advanced_strobe [] cfgW).1 = .started (adv_effect_id cfgW) ∧
    (start_ultra_strobe_effect [] ultraW).1 = .started (ultra_effect_id ultraW) :=
  ⟨(c1_duplicate_start_admission [] cfgW cfgW [] 0 [] ultraW ultraW rfl
      (List.not_mem_nil _) rfl (List.not_mem_nil _)).1.1,
   (c1_duplicate_start_admission [] cfgW cfgW [] 0 [] ultraW ultraW rfl
      (List.not_mem_nil _) rfl (List.not_mem_nil _)).2.1⟩

/-- C6: `stop_effect` on an unknown identity reports not-found and leaves the
registry unchanged; on a known identity it succeeds, the identity is gone
from the active list afterwards, and every other identity is retained. -/
theorem c6_stop_effect_spec :
    ∀ (reg : List String) (eid : String),
      (eid ∉ reg → stop_effect reg eid = (.notFound, reg)) ∧
      (reg.Nodup → eid ∈ reg →
        (stop_effect reg eid).1 = .ok ∧
        eid ∉ get_active_effects (stop_effect reg eid).2 ∧
        ∀ x ∈ reg, x ≠ eid → x ∈ get_active_effects (stop_effect reg eid).2) := by
  intro reg eid
  constructor
  · intro h
    simp only [stop_effect]
    rw [if_neg h]
  · intro hnd hmem
    simp only [stop_effect, get_active_effects]
    rw [if_pos hmem]
    refine ⟨rfl, ?_, ?_⟩
    · exact hnd.not_mem_erase
    · intro x hx hne
      exact (List.mem_erase_of_ne hne).mpr hx

/-- Witness for C6: stopping a registered effect and a missing one in a
concrete two-entry registry. -/
theorem c6_stop_effect_spec_witness :
    (stop_effect ["e1", "e2"] "e1").1 = .ok ∧
    "e1" ∉ get_active_effects (stop_effect ["e1", "e2"] "e1").2 ∧
    stop_effect ["e1", "e2"] "x" = (.notFound, ["e1", "e2"]) :=
  ⟨((c6_stop_effect_spec ["e1", "e2"] "e1").2 (by simp) (by simp)).1,
   ((c6_stop_effect_spec ["e1", "e2"] "e1").2 (by simp) (by simp)).2.1,
   (c6_stop_effect_spec ["e1", "e2"] "x").1 (by simp)⟩

/-! ## Helper lemmas for the strobe command traces -/

/-- The color sequence is never empty (every mode branch yields at least one
color). -/
theorem adv_color_sequence_ne_nil (cfg : AdvConfig) : adv_color_sequence cfg ≠ [] := by
  simp only [adv_color_sequence]
  split_ifs with h1 h2 h3
  · simp
  · exact h2.2
  · simp [rainbow_sequence]
  · simp

/-- The cycle color is always drawn from the color sequence. -/
theorem adv_cycle_color_mem (cfg : AdvConfig) (i : ℕ) :
    adv_cycle_color cfg i ∈ adv_color_sequence cfg := by
  simp only [adv_cycle_color]
  have hlen : 0 < (adv_color_sequence cfg).length :=
    List.length_pos.mpr (adv_color_sequence_ne_nil cfg)
  have hmod : (if cfg.mode = "multi" ∨ cfg.mode = "rainbow" then i else 0)
      % (adv_color_sequence cfg).length < (adv_color_sequence cfg).length :=
    Nat.mod_lt _ hlen
  rw [List.getD_eq_getElem _ _ hmod]
  exact List.getElem_mem hmod

/-- Every command body emitted by the advanced strobe loop is either an "on"
body built from a color of the sequence or the fixed "off" body. -/
theorem adv_loop_cmds_body (lights : List String) (cfg : AdvConfig) (n : ℕ) :
    ∀ cmd ∈ adv_loop_cmds lights cfg n,
      (∃ col ∈ adv_color_sequence cfg, cmd.body = adv_on_state col) ∨
      cmd.body = adv_off_state := by
  intro cmd hcmd
  simp only [adv_loop_cmds, List.mem_flatMap] at hcmd
  obtain ⟨i, _, hi⟩ := hcmd
  simp only [adv_cycle_cmds, List.mem_append] at hi
  rcases hi with hon | hoff
  · left
    refine ⟨adv_cycle_color cfg i, adv_cycle_color_mem cfg i, ?_⟩
    simp only [adv_on_cmds] at hon
    split_ifs at hon
    · obtain ⟨l, _, rfl⟩ := List.mem_map.mp hon
      rfl
    · rw [List.mem_singleton.mp hon]
  · right
    simp only [adv_off_cmds] at hoff
    split_ifs at hoff
    · obtain ⟨l, _, rfl⟩ := List.mem_map.mp hoff
      rfl
    · rw [List.mem_singleton.mp hoff]

/-- Neither advanced-strobe body is an off-with-slow-transition command. -/
theorem adv_bodies_not_slow_off (e : String) (c : Color) :
    is_slow_off ⟨e, adv_on_state c⟩ = false ∧
    is_slow_off ⟨e, adv_off_state⟩ = false := by
  constructor <;> simp [is_slow_off, dictGet, adv_on_state, adv_off_state]

/-- In scenario A the `finally` block removes the only registry entry and
emits no command. -/
theorem scenarioA_finally : adv_finally regA (adv_effect_id cfgA) = ([], []) := by
  simp only [adv_finally, regA]
  rw [if_pos (List.mem_singleton_self _)]
  rw [List.erase_cons_head]

/-- The commands of a full scenario-A run are exactly the loop commands. -/
theorem scenarioA_run_cmds :
    (adv_run lightsA cfgA 20 regA).2 = adv_loop_cmds lightsA cfgA 20 := by
  simp [adv_run, scenarioA_finally]

/-- Each cycle on target `all` issues two commands per light. -/
theorem adv_loop_cmds_length (lights : List String) (cfg : AdvConfig)
    (h : cfg.target_type = "all") (n : ℕ) :
    (adv_loop_cmds lights cfg n).length = n * (2 * lights.length) := by
  simp only [adv_loop_cmds]
  rw [List.length_flatMap]
  have hmap : (List.range n).map (List.length ∘ adv_cycle_cmds lights cfg)
      = List.replicate n (2 * lights.length) := by
    rw [List.eq_replicate_iff]
    refine ⟨by simp, ?_⟩
    intro x hx
    obtain ⟨i, _, rfl⟩ := List.mem_map.mp hx
    simp [Function.comp, adv_cycle_cmds, adv_on_cmds, adv_off_cmds, h]
    ring
  rw [hmap, List.sum_replicate, smul_eq_mul]

/-- C2 counterexample: a complete scenario-A run of the advanced strobe
(bounded, 2 s at 10 Hz, target `all`, two lights; 20 cycles then teardown)
emits 80 commands, none of which is an off-with-slow-transition command — the
advanced strobe's teardown emits no light command at all, so the claimed
"explicit off state with a slow transition" never happens for it. -/
theorem c2_advanced_no_slow_off_counterexample :
    (adv_run lightsA cfgA 20 regA).2.length = 80 ∧
    (adv_run lightsA cfgA 20 regA).2.filter is_slow_off = [] ∧
    (adv_finally regA (adv_effect_id cfgA)).2 = [] := by
  refine ⟨?_, ?_, ?_⟩
  · rw [scenarioA_run_cmds, adv_loop_cmds_length lightsA cfgA rfl 20]
    rfl
  · rw [scenarioA_run_cmds, List.filter_eq_nil_iff]
    intro cmd hcmd
    obtain ⟨e, b⟩ := cmd
    rcases adv_loop_cmds_body lightsA cfgA 20 ⟨e, b⟩ hcmd with ⟨col, _, hbody⟩ | hbody
    · simp only at hbody
      rw [hbody]
      simp [(adv_bodies_not_slow_off e col).1]
    · simp only at hbody
      rw [hbody]
      simp [(adv_bodies_not_slow_off e (Color.mk 0 0 0)).2]
  · rw [scenarioA_finally]

/-- C2 (amended): on teardown, a strobe generator whose identity is still
registered removes it; the ultra worker additionally issues one all-targets
off command with slow transition (transitiontime 10), while the advanced
strobe issues no teardown command at all.  When the identity was already
removed (external cancellation), neither generator emits a teardown command.
In scenario A (2 s at 10 Hz on `all`) the advanced strobe runs 20 cycles,
removes itself from the registry, and its last emitted command leaves the
targets off — with an instantaneous transition, not a slow one. -/
theorem c2_teardown_amended :
    (∀ (reg : List String) (eid : String), eid ∈ reg →
        adv_finally reg eid = (reg.erase eid, []) ∧
        ultra_finally reg eid = (reg.erase eid, [ultra_slow_off_cmd]) ∧
        dictGet "on" ultra_slow_off_cmd.body = some (.vBool false) ∧
        dictGet "transitiontime" ultra_slow_off_cmd.body = some (.vInt 10) ∧
        is_slow_off ultra_slow_off_cmd = true) ∧
    (∀ (reg : List String) (eid : String), eid ∉ reg →
        adv_finally reg eid = (reg, []) ∧ ultra_finally reg eid = (reg, [])) ∧
    ((adv_run lightsA cfgA 20 regA).1 = [] ∧
      (adv_run lightsA cfgA 20 regA).2.getLast?
        = some ⟨light_state_endpoint "2", adv_off_state⟩ ∧
      dictGet "on" adv_off_state = some (.vBool false) ∧
      dictGet "transitiontime" adv_off_state = some (.vInt 0)) := by
  refine ⟨?_, ?_, ?_, ?_, ?_, ?_⟩
  · intro reg eid h
    refine ⟨?_, ?_, ?_, ?_, ?_⟩
    · simp only [adv_finally]
      rw [if_pos h]
    · simp only [ultra_finally]
      rw [if_pos h]
    · rfl
    · rfl
    · rfl
  · intro reg eid h
    constructor
    · simp only [adv_finally]
      rw [if_neg h]
    · simp only [ultra_finally]
      rw [if_neg h]
  · simp [adv_run, scenarioA_finally]
  · rw [scenarioA_run_cmds]
    decide
  · rfl
  · rfl

/-- Witness for C2: the teardown clauses applied at a concrete singleton
registry, both for a present and for an absent identity. -/
theorem c2_teardown_amended_witness :
    ultra_finally ["e"] "e" = ([], [ultra_slow_off_cmd]) ∧
    adv_finally ["e"] "x" = (["e"], []) :=
  ⟨by
    have h := (c2_teardown_amended.1 ["e"] "e" (by simp)).2.1
    simpa using h,
   (c2_teardown_amended.2.1 ["e"] "x" (by simp)).1⟩

/-- C5 counterexample: the claimed uniform clamp to [0.1, 25] Hz is not what
either generator does.  The advanced strobe clamps 20 Hz down to 10 Hz even
though 20 lies inside [0.1, 25], and the ultra strobe clamps 0.5 Hz up to
1 Hz even though 0.5 lies inside [0.1, 25]. -/
theorem c5_frequency_clamp_counterexample :
    adv_clamp_frequency 20 = 10 ∧ (10 : ℚ) ≠ 20 ∧
    (1/10 : ℚ) ≤ 20 ∧ (20 : ℚ) ≤ 25 ∧
    ultra_clamp_frequency (1/2) = 1 ∧ (1 : ℚ) ≠ 1/2 ∧
    (1/10 : ℚ) ≤ 1/2 ∧ (1/2 : ℚ) ≤ 25 := by
  refine ⟨?_, ?_, ?_, ?_, ?_, ?_, ?_, ?_⟩ <;>
    norm_num [adv_clamp_frequency, ultra_clamp_frequency, max_def, min_def]

/-- C5 (amended): the advanced strobe clamps frequency into [0.1, 10] Hz (no
warning path), the ultra endpoint clamps into [1, 25] Hz and logs the safety
warning exactly above 15 Hz; a positive advanced duration is clamped into
[1, 300] s, the ultra endpoint caps duration at 60 s, duration 0 is untouched,
and with duration 0 the loop guard continues iff the identity is still
registered, while a positive duration stops the loop once it has elapsed. -/
theorem c5_clamping_amended :
    ∀ (f d elapsed : ℚ),
      (1/10 ≤ adv_clamp_frequency f ∧ adv_clamp_frequency f ≤ 10) ∧
      (1 ≤ ultra_clamp_frequency f ∧ ultra_clamp_frequency f ≤ 25) ∧
      (ultra_warning f = true ↔ 15 < ultra_clamp_frequency f) ∧
      (0 < d → 1 ≤ adv_clamp_duration d ∧ adv_clamp_duration d ≤ 300) ∧
      adv_clamp_duration 0 = 0 ∧
      ultra_endpoint_duration d ≤ 60 ∧
      adv_loop_continues 0 elapsed true = true ∧
      adv_loop_continues 0 elapsed false = false ∧
      (0 < d → d ≤ elapsed → adv_loop_continues d elapsed true = false) := by
  intro f d elapsed
  refine ⟨⟨?_, ?_⟩, ⟨?_, ?_⟩, ?_, ?_, ?_, ?_, ?_, ?_, ?_⟩
  · exact le_max_left _ _
  · exact max_le (by norm_num) (min_le_left _ _)
  · exact le_max_left _ _
  · exact max_le (by norm_num) (min_le_left _ _)
  · simp [ultra_warning]
  · intro hd
    simp only [adv_clamp_duration]
    rw [if_pos hd]
    exact ⟨le_max_left _ _, max_le (by norm_num) (min_le_left _ _)⟩
  · simp [adv_clamp_duration]
  · exact min_le_left _ _
  · simp [adv_loop_continues]
  · simp [adv_loop_continues]
  · intro hd hde
    simp only [adv_loop_continues, Bool.and_true]
    rw [decide_eq_false hd.ne', decide_eq_false (not_lt.mpr hde)]
    rfl

/-- Witness for C5: the duration clamp and the elapsed-duration loop stop at
concrete values. -/
theorem c5_clamping_amended_witness :
    (1 ≤ adv_clamp_duration 5 ∧ adv_clamp_duration 5 ≤ 300) ∧
    adv_loop_continues 5 7 true = false :=
  ⟨(c5_clamping_amended 20 5 7).2.2.2.1 (by norm_num),
   (c5_clamping_amended 20 5 7).2.2.2.2.2.2.2.2 (by norm_num) (by norm_num)⟩

/-- C9: for every frequency in the spec's [0.1, 25] Hz range, the advanced
strobe's `on_time + off_time` and the ultra strobe's
`flash_duration + pause_duration` each reconstruct the cycle period `1/f`
exactly. -/
theorem c9_duty_cycle_reconstructs_period :
    ∀ f : ℚ, 1/10 ≤ f → f ≤ 25 →
      adv_on_time f + adv_off_time f = adv_cycle_time f ∧
      adv_cycle_time f = 1 / f ∧
      ultra_flash_duration + ultra_pause_duration f = 1 / f := by
  intro f h1 h2
  have hf : 0 < f := lt_of_lt_of_le (by norm_num) h1
  refine ⟨?_, rfl, ?_⟩
  · simp only [adv_on_time, adv_off_time, adv_cycle_time]
    ring
  · simp only [ultra_flash_duration, ultra_pause_duration]
    rw [max_eq_right]
    · ring
    · have h25 : (1 : ℚ)/25 ≤ 1/f := one_div_le_one_div_of_le hf h2
      linarith

/-- Witness for C9: the reconstruction at 10 Hz. -/
theorem c9_duty_cycle_reconstructs_period_witness :
    adv_on_time 10 + adv_off_time 10 = adv_cycle_time 10 ∧
    adv_cycle_time 10 = 1 / 10 ∧
    ultra_flash_duration + ultra_pause_duration 10 = 1 / 10 :=
  c9_duty_cycle_reconstructs_period 10 (by norm_num) (by norm_num)

/-- C10: every "on" body the advanced strobe builds carries brightness
exactly 254 — the configured `bri` entry of the color is overridden by the
later `'bri': 254` dict entry — while hue and saturation come from the color;
and every loop command whose body is an "on" body has brightness 254 and its
body equals the "on" body of some color of the configured sequence. -/
theorem c10_on_brightness_override :
    (∀ c : Color,
        dictGet "bri" (adv_on_state c) = some (.vInt 254) ∧
        dictGet "hue" (adv_on_state c) = some (.vInt c.hue) ∧
        dictGet "sat" (adv_on_state c) = some (.vInt c.sat) ∧
        dictGet "on" (adv_on_state c) = some (.vBool true)) ∧
    (∀ (lights : List String) (cfg : AdvConfig) (n : ℕ) (cmd : Cmd),
        cmd ∈ adv_loop_cmds lights cfg n →
        dictGet "on" cmd.body = some (.vBool true) →
        dictGet "bri" cmd.body = some (.vInt 254) ∧
        ∃ col ∈ adv_color_sequence cfg, cmd.body = adv_on_state col) := by
  have hfirst : ∀ c : Color,
      dictGet "bri" (adv_on_state c) = some (.vInt 254) ∧
      dictGet "hue" (adv_on_state c) = some (.vInt c.hue) ∧
      dictGet "sat" (adv_on_state c) = some (.vInt c.sat) ∧
      dictGet "on" (adv_on_state c) = some (.vBool true) := by
    intro c
    refine ⟨rfl, rfl, rfl, rfl⟩
  refine ⟨hfirst, ?_⟩
  intro lights cfg n cmd hcmd honc
  rcases adv_loop_cmds_body lights cfg n cmd hcmd with ⟨col, hcol, hbody⟩ | hbody
  · rw [hbody]
    exact ⟨(hfirst col).1, col, hcol, rfl⟩
  · rw [hbody] at honc
    simp [dictGet, adv_off_state] at honc

/-- Witness for C10: the loop clause applied to the single "on" command of a
one-cycle run of a configuration with configured brightness 7: the emitted
brightness is still 254. -/
theorem c10_on_brightness_override_witness :
    dictGet "bri" (Cmd.mk (light_state_endpoint "1")
        (adv_on_state ⟨5, 6, 7⟩)).body = some (.vInt 254) ∧
    ∃ col ∈ adv_color_sequence cfgB,
      (Cmd.mk (light_state_endpoint "1") (adv_on_state ⟨5, 6, 7⟩)).body
        = adv_on_state col :=
  c10_on_brightness_override.2 ["1"] cfgB 1
    (Cmd.mk (light_state_endpoint "1") (adv_on_state ⟨5, 6, 7⟩))
    (by decide) rfl
